import Mathlib

/-!
Verification of the game-ledger core of `src/app.py`.

The ledger is a pandas `DataFrame` with columns
`nome, qtd_ganha, qtd_ficar, qtd_credito, valor_credito`.  We embed it as a
`List Row`.  Python strings are modelled as explicit character lists so that
`str.strip()` / `str.lower()` keep their exact semantics; a pandas `NaN`
cell is modelled as `none`.  Numeric cells use `Int` / `ℚ` (the float
arithmetic performed by the program — defaulting, comparison with zero,
one multiplication and a sum — is exact at these magnitudes).
-/

/-- Python strings, modelled as explicit character lists. -/
abbrev Str : Type := List Char

/-- Python `str.strip()`: drop leading and trailing whitespace. -/
def pyStrip (s : Str) : Str :=
  List.rdropWhile Char.isWhitespace (List.dropWhile Char.isWhitespace s)

/-- Python `str.lower()` (ASCII case folding, as `Char.toLower`). -/
def pyLower (s : Str) : Str := s.map Char.toLower

/-- Default price `DEFAULT_CREDITO = 59.0` (src/app.py line 20). -/
def DEFAULT_CREDITO : ℚ := 59

/-- One row of the ledger DataFrame (columns of `CAMPOS`, line 19).
`valor_credito = none` models a NaN cell; the three quantity columns are
integers after the load-time coercions. -/
structure Row where
  nome : Str
  qtd_ganha : Int
  qtd_ficar : Int
  qtd_credito : Int
  valor_credito : Option ℚ
  deriving DecidableEq, Repr

/-- The `valor_credito` column update of line 46:
`df["valor_credito"].fillna(DEFAULT_CREDITO).replace(0, DEFAULT_CREDITO)`
applied to a single cell. -/
def fillValor : Option ℚ → ℚ
  | none => DEFAULT_CREDITO
  | some x => if x = 0 then DEFAULT_CREDITO else x

/-- Function `recalc_df` (lines 43–47) acting on one row:
`qtd_credito = (qtd_ganha - qtd_ficar).clip(lower=0)` and the
`valor_credito` fill/replace of line 46. -/
def recalcRow (r : Row) : Row :=
  { r with
    qtd_credito := max 0 (r.qtd_ganha - r.qtd_ficar),
    valor_credito := some (fillValor r.valor_credito) }

/-- Function `recalc_df` (lines 43–47): both column assignments are element-wise. -/
def recalc_df (df : List Row) : List Row := df.map recalcRow

/-- The pandas mask of line 54, `df["nome"].str.lower() == nome.lower()`,
evaluated at one row (`nomeL` is the already-lowered lookup name). -/
def maskRow (nomeL : Str) (r : Row) : Bool := pyLower r.nome == nomeL

/-- The update branch of lines 69–75: `idx = df.index[mask][0]` selects the
first row of the mask (the frames in the program carry the default
`RangeIndex`, so index order is positional order) and the three `df.at`
assignments rewrite that row in place. -/
def updateFirstMatch (p : Row → Bool) (upd : Row → Row) : List Row → List Row
  | [] => []
  | r :: rs => if p r then upd r :: rs else r :: updateFirstMatch p upd rs

/-- The three conditional `df.at` updates of lines 70–75 on the matched row:
`qtd_ganha` is incremented when given, `qtd_ficar` and `valor_credito` are
overwritten when given. -/
def atualizaLinha (qtd_ganha qtd_ficar : Option Int) (valor_credito : Option ℚ)
    (r : Row) : Row :=
  let r1 := match qtd_ganha with
    | none => r
    | some d => { r with qtd_ganha := r.qtd_ganha + d }
  let r2 := match qtd_ficar with
    | none => r1
    | some k => { r1 with qtd_ficar := k }
  match valor_credito with
  | none => r2
  | some x => { r2 with valor_credito := some x }

/-- The new record of lines 57–66 (`nome` is already stripped at line 51;
`int(x or 0)` sends `None` to `0`; `valor_credito` defaults to
`DEFAULT_CREDITO` only when `None`). -/
def novaLinha (nome : Str) (qtd_ganha qtd_ficar : Option Int)
    (valor_credito : Option ℚ) : Row :=
  { nome := nome,
    qtd_ganha := qtd_ganha.getD 0,
    qtd_ficar := qtd_ficar.getD 0,
    qtd_credito := 0,
    valor_credito := some (valor_credito.getD DEFAULT_CREDITO) }

/-- Function `upsert_jogo` (lines 50–77). -/
def upsert_jogo (df : List Row) (nome : Str) (qtd_ganha qtd_ficar : Option Int)
    (valor_credito : Option ℚ) : List Row :=
  let nomeT := pyStrip nome
  if nomeT = [] then df
  else
    recalc_df <|
      if !(df.any (maskRow (pyLower nomeT))) then
        df ++ [novaLinha nomeT qtd_ganha qtd_ficar valor_credito]
      else
        updateFirstMatch (maskRow (pyLower nomeT))
          (atualizaLinha qtd_ganha qtd_ficar valor_credito) df

/-- One row of the backing store `jogos.csv` as produced by `pd.read_csv`:
every numeric cell is either a parsed number or `none` (a missing column,
an empty cell, or a cell `pd.to_numeric(..., errors="coerce")` turns into
NaN — a missing column is filled with `0` at line 28, which coincides with
the `fillna(0)` path for the quantity columns and reaches the same
post-`recalc_df` state for `valor_credito`, since line 46 also replaces a
literal `0` by the default). -/
structure RawRow where
  nome : Str
  qtd_ganha : Option ℚ
  qtd_ficar : Option ℚ
  qtd_credito : Option ℚ
  valor_credito : Option ℚ
  deriving DecidableEq, Repr

/-- Pandas `astype(int)` on a float column: C-style truncation toward zero. -/
def ratTrunc (q : ℚ) : Int := if 0 ≤ q then ⌊q⌋ else ⌈q⌉

/-- One quantity cell through line 31:
`pd.to_numeric(df[c], errors="coerce").fillna(0).astype(int)`. -/
def coerceQtd (c : Option ℚ) : Int := ratTrunc (c.getD 0)

/-- The `valor_credito` cell through line 32:
`pd.to_numeric(..., errors="coerce").fillna(DEFAULT_CREDITO).astype(float)`. -/
def coerceValor (c : Option ℚ) : ℚ := c.getD DEFAULT_CREDITO

/-- Lines 26–32 applied to one stored row: ensure columns, trim the name
(`astype(str).str.strip()`), coerce the numeric columns. -/
def loadRow (r : RawRow) : Row :=
  { nome := pyStrip r.nome,
    qtd_ganha := coerceQtd r.qtd_ganha,
    qtd_ficar := coerceQtd r.qtd_ficar,
    qtd_credito := coerceQtd r.qtd_credito,
    valor_credito := some (coerceValor r.valor_credito) }

/-- Function `carregar_df` (lines 22–35); `none` models a missing `jogos.csv`
(`ARQUIVO_CSV.exists()` false), in which case an empty frame with the
`CAMPOS` columns is built. -/
def carregar_df (store : Option (List RawRow)) : List Row :=
  recalc_df
    (match store with
     | none => []
     | some rows => rows.map loadRow)

/-- The value-preserving CSV serialization of one recomputed row performed
by `df.to_csv` (line 40): integers and finite decimals round-trip through
their decimal notation; a NaN `valor_credito` would be written as an empty
cell, which reads back as NaN. -/
def dumpRow (r : Row) : RawRow :=
  { nome := r.nome,
    qtd_ganha := some (r.qtd_ganha : ℚ),
    qtd_ficar := some (r.qtd_ficar : ℚ),
    qtd_credito := some (r.qtd_credito : ℚ),
    valor_credito := r.valor_credito }

/-- Function `salvar_df` (lines 38–40): recompute, then overwrite the whole store. -/
def salvar_df (df : List Row) : Option (List RawRow) :=
  some ((recalc_df df).map dumpRow)

/-- One row of the "quero trazer" report (line 164 projection). -/
structure TrazerRow where
  nome : Str
  qtd_ganha : Int
  qtd_ficar : Int
  deriving DecidableEq, Repr

/-- Line 164: `df[df["qtd_ficar"] > 0][["nome", "qtd_ganha", "qtd_ficar"]]`. -/
def df_trazer (df : List Row) : List TrazerRow :=
  (df.filter fun r => 0 < r.qtd_ficar).map fun r =>
    { nome := r.nome, qtd_ganha := r.qtd_ganha, qtd_ficar := r.qtd_ficar }

/-- One row of the "para crédito" report, fields in the column order of
line 177 (`cols_ordem`). -/
structure CreditoRow where
  nome : Str
  qtd_ganha : Int
  qtd_ficar : Int
  qtd_credito : Int
  valor_credito : Option ℚ
  total_credito : Option ℚ
  deriving DecidableEq, Repr

/-- Lines 175–178: filter `qtd_credito > 0`, add
`total_credito = qtd_credito * valor_credito`, reorder columns. -/
def df_credito (df : List Row) : List CreditoRow :=
  (df.filter fun r => 0 < r.qtd_credito).map fun r =>
    { nome := r.nome,
      qtd_ganha := r.qtd_ganha,
      qtd_ficar := r.qtd_ficar,
      qtd_credito := r.qtd_credito,
      valor_credito := r.valor_credito,
      total_credito := r.valor_credito.map fun v => (r.qtd_credito : ℚ) * v }

/-- Line 181:
`float(df_credito["total_credito"].sum()) if not df_credito.empty else 0.0`
(a pandas `.sum()` skips NaN cells). -/
def total_geral (df : List Row) : ℚ :=
  if df_credito df = [] then 0
  else ((df_credito df).filterMap CreditoRow.total_credito).sum

/-! ### String helper lemmas -/

lemma char_toNat_ofNat_of_valid {m : Nat} (h : m < 55296) :
    (Char.ofNat m).toNat = m := by
  have hv : m.isValidChar := Or.inl h
  rw [Char.ofNat, dif_pos hv]
  simp [Char.ofNatAux, Char.toNat, UInt32.toNat]

lemma char_isWhitespace_eq_false (d : Char) (h : 64 < d.toNat) :
    d.isWhitespace = false := by
  have h32 : d ≠ ' ' := by intro hd; subst hd; exact absurd h (by decide)
  have h9 : d ≠ '\t' := by intro hd; subst hd; exact absurd h (by decide)
  have h13 : d ≠ '\r' := by intro hd; subst hd; exact absurd h (by decide)
  have h10 : d ≠ '\n' := by intro hd; subst hd; exact absurd h (by decide)
  simp [Char.isWhitespace, h32, h9, h13, h10]

/-- Lowercasing maps no character into or out of the whitespace class. -/
lemma isWhitespace_toLower (c : Char) :
    (Char.toLower c).isWhitespace = c.isWhitespace := by
  show (if c.toNat ≥ 65 ∧ c.toNat ≤ 90 then Char.ofNat (c.toNat + 32)
        else c).isWhitespace = c.isWhitespace
  by_cases h : c.toNat ≥ 65 ∧ c.toNat ≤ 90
  · have h1 : (Char.ofNat (c.toNat + 32)).toNat = c.toNat + 32 :=
      char_toNat_ofNat_of_valid (by omega)
    rw [if_pos h, char_isWhitespace_eq_false _ (by omega),
      char_isWhitespace_eq_false c (by omega)]
  · rw [if_neg h]

lemma isWhitespace_comp_toLower :
    Char.isWhitespace ∘ Char.toLower = Char.isWhitespace :=
  funext fun c => isWhitespace_toLower c

lemma pyLower_dropWhile (s : Str) :
    List.dropWhile Char.isWhitespace (pyLower s) =
      pyLower (List.dropWhile Char.isWhitespace s) := by
  unfold pyLower
  rw [List.dropWhile_map, isWhitespace_comp_toLower]

/-- Python `str.lower()` commutes with `str.strip()`. -/
lemma pyLower_pyStrip (s : Str) : pyLower (pyStrip s) = pyStrip (pyLower s) := by
  unfold pyStrip List.rdropWhile
  rw [pyLower_dropWhile]
  generalize List.dropWhile Char.isWhitespace s = t
  show pyLower (List.dropWhile _ t.reverse).reverse =
    (List.dropWhile _ (pyLower t).reverse).reverse
  unfold pyLower
  rw [← List.map_reverse, List.dropWhile_map, isWhitespace_comp_toLower,
    List.map_reverse]

lemma pyStrip_sub_dropWhile (s : Str) :
    pyStrip s <+: List.dropWhile Char.isWhitespace s :=
  List.rdropWhile_prefix _ _

/-- Python `str.strip()` is idempotent. -/
lemma pyStrip_idem (s : Str) : pyStrip (pyStrip s) = pyStrip s := by
  have h1 : List.dropWhile Char.isWhitespace (pyStrip s) = pyStrip s := by
    cases hps : pyStrip s with
    | nil => simp
    | cons a t =>
      have hpre := pyStrip_sub_dropWhile s
      rw [hps] at hpre
      obtain ⟨rest, hrest⟩ := hpre
      have h0 : List.dropWhile Char.isWhitespace s = a :: (t ++ rest) := by
        rw [← hrest]; simp
      have hh := List.head?_dropWhile_not Char.isWhitespace s
      rw [h0] at hh
      simp only [List.head?_cons] at hh
      exact List.dropWhile_cons_of_neg (by simp [hh])
  show List.rdropWhile _ (List.dropWhile _ (pyStrip s)) = _
  rw [h1]
  show List.rdropWhile _ (List.rdropWhile _ _) = _
  rw [List.rdropWhile_idempotent]
  rfl

/-! ### Ledger helper lemmas -/

lemma fillValor_ne_zero (v : Option ℚ) : fillValor v ≠ 0 := by
  cases v with
  | none => simp [fillValor, DEFAULT_CREDITO]
  | some x =>
    simp only [fillValor]
    split
    · simp [DEFAULT_CREDITO]
    · assumption

lemma fillValor_fillValor (v : Option ℚ) :
    fillValor (some (fillValor v)) = fillValor v := by
  rw [show fillValor (some (fillValor v)) =
      if fillValor v = 0 then DEFAULT_CREDITO else fillValor v from rfl,
    if_neg (fillValor_ne_zero v)]

lemma recalcRow_nome (r : Row) : (recalcRow r).nome = r.nome := rfl

lemma recalcRow_idem (r : Row) : recalcRow (recalcRow r) = recalcRow r := by
  simp [recalcRow, fillValor_fillValor]

lemma recalc_df_idem_aux (df : List Row) :
    recalc_df (recalc_df df) = recalc_df df := by
  simp only [recalc_df, List.map_map]
  exact List.map_congr_left fun r _ => recalcRow_idem r

lemma recalc_df_length (df : List Row) :
    (recalc_df df).length = df.length := by
  simp [recalc_df]

lemma recalc_df_get (df : List Row) (i : ℕ) (hi : i < df.length)
    (hi' : i < (recalc_df df).length) :
    (recalc_df df).get ⟨i, hi'⟩ = recalcRow (df.get ⟨i, hi⟩) := by
  simp [recalc_df]

lemma atualizaLinha_nome (g f : Option Int) (v : Option ℚ) (r : Row) :
    (atualizaLinha g f v r).nome = r.nome := by
  simp only [atualizaLinha]
  cases g <;> cases f <;> cases v <;> rfl

lemma updateFirstMatch_length (p : Row → Bool) (u : Row → Row) (df : List Row) :
    (updateFirstMatch p u df).length = df.length := by
  induction df with
  | nil => rfl
  | cons r rs ih =>
    simp only [updateFirstMatch]
    split <;> simp [ih]

lemma updateFirstMatch_map_nome (p : Row → Bool) (u : Row → Row)
    (hu : ∀ r, (u r).nome = r.nome) (df : List Row) :
    (updateFirstMatch p u df).map Row.nome = df.map Row.nome := by
  induction df with
  | nil => rfl
  | cons r rs ih =>
    simp only [updateFirstMatch]
    split <;> simp [hu, ih]

lemma updateFirstMatch_eq_set (p : Row → Bool) (u : Row → Row) :
    ∀ (df : List Row) (i : ℕ) (hi : i < df.length),
      (∀ j (hj : j < df.length), j < i → p (df.get ⟨j, hj⟩) = false) →
      p (df.get ⟨i, hi⟩) = true →
      updateFirstMatch p u df = df.set i (u (df.get ⟨i, hi⟩))
  | [], i, hi => by simp at hi
  | r :: rs, 0, hi => by
    intro _ hp
    simp only [List.get] at hp
    simp [updateFirstMatch, hp]
  | r :: rs, i + 1, hi => by
    intro hb hp
    have hr : p r = false := hb 0 (by simp) (by omega)
    simp only [updateFirstMatch, hr, Bool.false_eq_true, if_false, List.set]
    congr 1
    exact updateFirstMatch_eq_set p u rs i (by simpa using hi)
      (fun j hj hji => hb (j + 1) (by simpa using hj) (by omega)) hp

lemma updateFirstMatch_getElem?_of_false (p : Row → Bool) (u : Row → Row) :
    ∀ (df : List Row) (i : ℕ),
      (∀ r, df[i]? = some r → p r = false) →
      (updateFirstMatch p u df)[i]? = df[i]?
  | [], _, _ => by simp [updateFirstMatch]
  | r :: rs, 0, h => by
    have hr : p r = false := h r (by simp)
    simp [updateFirstMatch, hr]
  | r :: rs, i + 1, h => by
    simp only [updateFirstMatch]
    by_cases hpr : p r
    · simp [hpr]
    · rw [if_neg hpr]
      simp only [List.getElem?_cons_succ]
      exact updateFirstMatch_getElem?_of_false p u rs i
        fun r' h' => h r' (by simpa using h')

lemma updateFirstMatch_get_of_false (p : Row → Bool) (u : Row → Row)
    (df : List Row) (i : ℕ) (hi : i < df.length)
    (hi' : i < (updateFirstMatch p u df).length)
    (hp : p (df.get ⟨i, hi⟩) = false) :
    (updateFirstMatch p u df).get ⟨i, hi'⟩ = df.get ⟨i, hi⟩ := by
  have h? : (updateFirstMatch p u df)[i]? = df[i]? := by
    refine updateFirstMatch_getElem?_of_false p u df i fun r hr => ?_
    have hsome : df[i]? = some (df.get ⟨i, hi⟩) := by
      simp [List.getElem?_eq_getElem hi]
    rw [hsome] at hr
    cases hr
    exact hp
  have h1 : (updateFirstMatch p u df)[i]? =
      some ((updateFirstMatch p u df).get ⟨i, hi'⟩) := by
    simp [List.getElem?_eq_getElem hi']
  have h2 : df[i]? = some (df.get ⟨i, hi⟩) := by
    simp [List.getElem?_eq_getElem hi]
  rw [h1, h2] at h?
  exact Option.some_injective _ h?

/-! ### Claim theorems -/

/-- C9: for every table, an empty or whitespace-only `nome` makes
`upsert_jogo` a no-op returning the table unchanged (lines 51–53; the
Python `nome or ""` also sends `None` through the same branch). -/
theorem upsert_blank_name_noop (df : List Row) (nome : Str)
    (g f : Option Int) (v : Option ℚ) (h : pyStrip nome = []) :
    upsert_jogo df nome g f v = df := by
  simp [upsert_jogo, h]

theorem upsert_blank_name_noop_witness :
    pyStrip [' ', ' '] = [] ∧
      upsert_jogo [⟨['A'], 1, 0, 1, some 59⟩] [' ', ' '] (some 3) none none =
        [⟨['A'], 1, 0, 1, some 59⟩] :=
  ⟨by decide, upsert_blank_name_noop _ _ _ _ _ (by decide)⟩

/-- C7: `recalc_df` is idempotent: recomputing twice equals recomputing
once, for every table. -/
theorem recalc_idempotent (df : List Row) :
    recalc_df (recalc_df df) = recalc_df df :=
  recalc_df_idem_aux df

/-- C2 as stated is false at a table holding a negative stored
`valor_credito`: `replace(0, DEFAULT_CREDITO)` only replaces an exact
zero, so `-1` survives `recalc_df` and `credit_value > 0` fails. -/
theorem recalc_negative_value_cex :
    ∃ r ∈ recalc_df [⟨['A'], 1, 0, 0, some (-1)⟩],
      ¬ 0 < r.valor_credito.getD 0 := by decide

/-- C2 (amended): for every table whose rows each carry a missing or
non-negative `valor_credito`, every row of `recalc_df T` satisfies
`qtd_credito = max 0 (qtd_ganha - qtd_ficar)` and has a present, positive
`valor_credito`; in particular a missing or zero `valor_credito` cell is
replaced by `DEFAULT_CREDITO = 59`.  (The claim's unrestricted "every
table" fails for negative stored values, see the counterexample.) -/
theorem recalc_invariant (df : List Row)
    (hv : ∀ r ∈ df, 0 ≤ r.valor_credito.getD 0) :
    (∀ r ∈ recalc_df df,
        r.qtd_credito = max 0 (r.qtd_ganha - r.qtd_ficar) ∧
        ∃ x, r.valor_credito = some x ∧ 0 < x) ∧
    (∀ r ∈ df, (r.valor_credito = none ∨ r.valor_credito = some 0) →
        (recalcRow r).valor_credito = some DEFAULT_CREDITO) := by
  constructor
  · intro r hr
    obtain ⟨r0, hr0, rfl⟩ := List.mem_map.mp hr
    refine ⟨rfl, fillValor r0.valor_credito, rfl, ?_⟩
    cases hval : r0.valor_credito with
    | none => simp [fillValor, DEFAULT_CREDITO]
    | some x =>
      have hx : 0 ≤ x := by simpa [hval] using hv r0 hr0
      simp only [fillValor]
      split
      · norm_num [DEFAULT_CREDITO]
      · rename_i hx0
        exact lt_of_le_of_ne hx (Ne.symm hx0)
  · intro r _ hcase
    rcases hcase with h0 | h0 <;> simp [recalcRow, h0, fillValor]

theorem recalc_invariant_witness :
    (∀ r ∈ [(⟨['A'], 3, 1, 0, some 0⟩ : Row)], 0 ≤ r.valor_credito.getD 0) ∧
      (∀ r ∈ recalc_df [(⟨['A'], 3, 1, 0, some 0⟩ : Row)],
          r.qtd_credito = max 0 (r.qtd_ganha - r.qtd_ficar) ∧
          ∃ x, r.valor_credito = some x ∧ 0 < x) :=
  ⟨by decide, (recalc_invariant _ (by decide)).1⟩

/-- C5 as stated is false: a stored quantity `-5` is coerced by
`pd.to_numeric(...).fillna(0).astype(int)` to the negative integer `-5`,
not to a non-negative integer. -/
theorem carregar_negative_quantity_cex :
    (carregar_df (some [⟨['A'], some (-5), some 0, some 0, some 10⟩])).map
        Row.qtd_ganha = [-5] ∧ ¬ (0 ≤ (-5 : Int)) := by decide

/-- C5 (amended): `carregar_df` never fails on a missing store — it
returns the empty table — and otherwise returns the stored rows with the
five columns ensured, names trimmed, each quantity cell coerced to an
integer (missing/unparseable, i.e. NaN after `to_numeric`, becoming `0`)
and `valor_credito` coerced to a decimal (missing/unparseable becoming the
default constant), the result passed through the recompute.  The claim's
"non-negative integer" had to be weakened to "integer": negative stored
quantities are kept (see the counterexample). -/
theorem carregar_coercion :
    carregar_df none = [] ∧
    ∀ rows : List RawRow,
      carregar_df (some rows) = rows.map fun raw =>
        { nome := pyStrip raw.nome,
          qtd_ganha := ratTrunc (raw.qtd_ganha.getD 0),
          qtd_ficar := ratTrunc (raw.qtd_ficar.getD 0),
          qtd_credito := max 0 (ratTrunc (raw.qtd_ganha.getD 0) -
            ratTrunc (raw.qtd_ficar.getD 0)),
          valor_credito :=
            some (fillValor (some (raw.valor_credito.getD DEFAULT_CREDITO))) } :=
  ⟨rfl, fun rows => by
    simp only [carregar_df, recalc_df, List.map_map]
    rfl⟩

lemma ratTrunc_intCast (n : Int) : ratTrunc (n : ℚ) = n := by
  unfold ratTrunc
  split <;> simp

/-- C6: loading immediately after saving yields exactly the recompute of
the saved table, for every well-formed table (names trimmed; the model
already forces integer quantities and decimal prices); `salvar_df` itself
always applies `recalc_df` before overwriting the whole store. -/
theorem load_after_save_roundtrip (df : List Row)
    (htrim : ∀ r ∈ df, pyStrip r.nome = r.nome) :
    carregar_df (salvar_df df) = recalc_df df := by
  have hid : ∀ r ∈ recalc_df df, loadRow (dumpRow r) = r := by
    intro r hr
    obtain ⟨r0, hr0, rfl⟩ := List.mem_map.mp hr
    have hnome : pyStrip r0.nome = r0.nome := htrim r0 hr0
    show loadRow (dumpRow (recalcRow r0)) = recalcRow r0
    simp only [loadRow, dumpRow, recalcRow, coerceQtd, coerceValor,
      Option.getD_some, ratTrunc_intCast, hnome]
  have hstep : ((recalc_df df).map dumpRow).map loadRow = recalc_df df := by
    rw [List.map_map]
    calc List.map (loadRow ∘ dumpRow) (recalc_df df)
        = List.map id (recalc_df df) :=
          List.map_congr_left fun r hr => hid r hr
      _ = recalc_df df := List.map_id _
  show recalc_df (((recalc_df df).map dumpRow).map loadRow) = recalc_df df
  rw [hstep]
  exact recalc_df_idem_aux df

theorem load_after_save_roundtrip_witness :
    (∀ r ∈ [(⟨['C', 'a', 't', 'a', 'n'], 3, 1, 0, some 10⟩ : Row)],
        pyStrip r.nome = r.nome) ∧
      carregar_df (salvar_df [⟨['C', 'a', 't', 'a', 'n'], 3, 1, 0, some 10⟩]) =
        recalc_df [⟨['C', 'a', 't', 'a', 'n'], 3, 1, 0, some 10⟩] :=
  ⟨by decide, load_after_save_roundtrip _ (by decide)⟩

/-- C8: the "quero trazer" export holds exactly the rows with
`qtd_ficar > 0` projected to `nome, qtd_ganha, qtd_ficar`; the "para
crédito" export holds exactly the rows with `qtd_credito > 0` extended
with `total_credito = qtd_credito * valor_credito` (fields in the
`cols_ordem` order of line 177); the aggregate equals the sum of the
`total_credito` column and is `0` when no row qualifies. -/
theorem export_reports (df : List Row) :
    (∀ x, x ∈ df_trazer df ↔ ∃ r ∈ df, 0 < r.qtd_ficar ∧
        x = ⟨r.nome, r.qtd_ganha, r.qtd_ficar⟩) ∧
    (∀ y, y ∈ df_credito df ↔ ∃ r ∈ df, 0 < r.qtd_credito ∧
        y = ⟨r.nome, r.qtd_ganha, r.qtd_ficar, r.qtd_credito, r.valor_credito,
          r.valor_credito.map fun v => (r.qtd_credito : ℚ) * v⟩) ∧
    ((∀ r ∈ df, ¬ 0 < r.qtd_credito) → total_geral df = 0) ∧
    total_geral df =
      ((df.filter fun r => 0 < r.qtd_credito).filterMap
        fun r => r.valor_credito.map fun v => (r.qtd_credito : ℚ) * v).sum := by
  refine ⟨?_, ?_, ?_, ?_⟩
  · intro x
    simp only [df_trazer, List.mem_map, List.mem_filter, decide_eq_true_eq]
    constructor
    · rintro ⟨r, ⟨hr, hf⟩, rfl⟩
      exact ⟨r, hr, hf, rfl⟩
    · rintro ⟨r, hr, hf, rfl⟩
      exact ⟨r, ⟨hr, hf⟩, rfl⟩
  · intro y
    simp only [df_credito, List.mem_map, List.mem_filter, decide_eq_true_eq]
    constructor
    · rintro ⟨r, ⟨hr, hf⟩, rfl⟩
      exact ⟨r, hr, hf, rfl⟩
    · rintro ⟨r, hr, hf, rfl⟩
      exact ⟨r, ⟨hr, hf⟩, rfl⟩
  · intro hnone
    have hfil : df.filter (fun r => 0 < r.qtd_credito) = [] := by
      rw [List.filter_eq_nil_iff]
      intro r hr
      simpa using hnone r hr
    simp [total_geral, df_credito, hfil]
  · by_cases hemp : df_credito df = []
    · have hfil : df.filter (fun r => 0 < r.qtd_credito) = [] := by
        have := congrArg List.length hemp
        simp only [df_credito, List.length_map, List.length_nil] at this
        exact List.length_eq_zero.mp this
      simp [total_geral, hemp, hfil]
    · rw [total_geral, if_neg hemp, df_credito, List.filterMap_map]
      rfl

theorem export_reports_witness :
    total_geral [(⟨['A'], 2, 2, 0, some 10⟩ : Row)] = 0 :=
  (export_reports _).2.2.1 (by decide)

lemma get_congr_of_eq {l1 l2 : List Row} (h : l1 = l2) (i : ℕ)
    (h1 : i < l1.length) (h2 : i < l2.length) :
    l1.get ⟨i, h1⟩ = l2.get ⟨i, h2⟩ := by
  subst h
  rfl

lemma any_congr_mem {l : List Row} {p q : Row → Bool}
    (h : ∀ r ∈ l, p r = q r) : l.any p = l.any q := by
  induction l with
  | nil => rfl
  | cons a t ih =>
    simp only [List.any_cons, h a (by simp)]
    rw [ih fun r hr => h r (by simp [hr])]

lemma atualizaLinha_eq (g f : Option Int) (v : Option ℚ) (r : Row) :
    atualizaLinha g f v r =
      { r with
        qtd_ganha := r.qtd_ganha + g.getD 0,
        qtd_ficar := f.getD r.qtd_ficar,
        valor_credito := (v.map some).getD r.valor_credito } := by
  cases g <;> cases f <;> cases v <;> simp [atualizaLinha]

/-- The lookup of line 54 strips and lowers the given name but only lowers
the stored one, so a trimmed-and-lowered match by a row forces the code
mask whenever the stored name is itself trimmed. -/
lemma maskRow_of_trimmed {r : Row} (ht : pyStrip r.nome = r.nome)
    {nome : Str} :
    maskRow (pyLower (pyStrip nome)) r =
      (pyLower (pyStrip r.nome) == pyLower (pyStrip nome)) := by
  rw [maskRow, ht]

/-- A code-mask match implies a trimmed case-insensitive match (the
stored name lowering to a stripped string must itself be stripped). -/
lemma trimmed_match_of_maskRow {r : Row} {nome : Str}
    (h : pyLower r.nome = pyLower (pyStrip nome)) :
    pyLower (pyStrip r.nome) = pyLower (pyStrip nome) := by
  calc pyLower (pyStrip r.nome)
      = pyStrip (pyLower r.nome) := pyLower_pyStrip _
    _ = pyStrip (pyLower (pyStrip nome)) := by rw [h]
    _ = pyStrip (pyStrip (pyLower nome)) := by rw [pyLower_pyStrip]
    _ = pyStrip (pyLower nome) := pyStrip_idem _
    _ = pyLower (pyStrip nome) := (pyLower_pyStrip _).symm

/-- C1 as stated is false: the lookup mask of line 54 lowers the stored
name without stripping it, so the single row `" Catan"`, whose trimmed
name matches the given `"Catan"` case-insensitively, is not updated —
a second row is inserted instead of incrementing its `qtd_ganha`. -/
theorem upsert_trimmed_match_cex :
    pyLower (pyStrip
        (⟨[' ', 'C', 'a', 't', 'a', 'n'], 3, 1, 2, some 10⟩ : Row).nome) =
      pyLower (pyStrip ['C', 'a', 't', 'a', 'n']) ∧
    upsert_jogo [⟨[' ', 'C', 'a', 't', 'a', 'n'], 3, 1, 2, some 10⟩]
        ['C', 'a', 't', 'a', 'n'] (some 2) none none ≠
      recalc_df ([⟨[' ', 'C', 'a', 't', 'a', 'n'], 3, 1, 2, some 10⟩].set 0
        ⟨[' ', 'C', 'a', 't', 'a', 'n'], 5, 1, 2, some 10⟩) := by decide

/-- C1 (amended): in a table whose stored names are trimmed, holding
exactly one row whose trimmed name matches the given non-blank name
case-insensitively, `upsert_jogo` rewrites exactly that row —
`qtd_ganha` incremented by the delta when provided (`+ 0`, i.e.
untouched, when not), `qtd_ficar` replaced when provided and untouched
otherwise, `valor_credito` replaced when provided and untouched otherwise
— and then recomputes.  (The claim as stated fails on untrimmed stored
names, see the counterexample; the blank-name no-op of lines 52–53 forces
the non-blank hypothesis.) -/
theorem upsert_updates_matching_row (df : List Row) (nome : Str)
    (g f : Option Int) (v : Option ℚ)
    (htrim : ∀ r ∈ df, pyStrip r.nome = r.nome)
    (hnb : pyStrip nome ≠ [])
    (i : ℕ) (hi : i < df.length)
    (hmatch : pyLower (pyStrip (df.get ⟨i, hi⟩).nome) = pyLower (pyStrip nome))
    (huniq : ∀ j (hj : j < df.length),
      pyLower (pyStrip (df.get ⟨j, hj⟩).nome) = pyLower (pyStrip nome) → j = i) :
    upsert_jogo df nome g f v = recalc_df (df.set i
      { df.get ⟨i, hi⟩ with
        qtd_ganha := (df.get ⟨i, hi⟩).qtd_ganha + g.getD 0,
        qtd_ficar := f.getD (df.get ⟨i, hi⟩).qtd_ficar,
        valor_credito := (v.map some).getD (df.get ⟨i, hi⟩).valor_credito }) := by
  have hmask_i : maskRow (pyLower (pyStrip nome)) (df.get ⟨i, hi⟩) = true := by
    rw [maskRow_of_trimmed (htrim _ (df.get_mem _ _))]
    exact beq_iff_eq.mpr hmatch
  have hany : df.any (maskRow (pyLower (pyStrip nome))) = true :=
    List.any_eq_true.mpr ⟨df.get ⟨i, hi⟩, df.get_mem _ _, hmask_i⟩
  have hbefore : ∀ j (hj : j < df.length), j < i →
      maskRow (pyLower (pyStrip nome)) (df.get ⟨j, hj⟩) = false := by
    intro j hj hji
    rw [maskRow_of_trimmed (htrim _ (df.get_mem _ _))]
    refine beq_eq_false_iff_ne.mpr fun heq => ?_
    exact absurd (huniq j hj heq) (by omega)
  show (if pyStrip nome = [] then df else
    recalc_df <|
      if !(df.any (maskRow (pyLower (pyStrip nome)))) then
        df ++ [novaLinha (pyStrip nome) g f v]
      else
        updateFirstMatch (maskRow (pyLower (pyStrip nome)))
          (atualizaLinha g f v) df) = _
  rw [if_neg hnb, hany]
  show recalc_df
    (updateFirstMatch (maskRow (pyLower (pyStrip nome)))
      (atualizaLinha g f v) df) = _
  rw [updateFirstMatch_eq_set _ _ df i hi hbefore hmask_i, atualizaLinha_eq]

theorem upsert_updates_matching_row_witness :
    upsert_jogo [⟨['C', 'a', 't', 'a', 'n'], 3, 1, 2, some 10⟩]
        ['c', 'a', 't', 'a', 'n'] (some 2) none none =
      [⟨['C', 'a', 't', 'a', 'n'], 5, 1, 4, some 10⟩] := by
  rw [upsert_updates_matching_row _ _ _ _ _ (by decide) (by decide) 0 (by decide)
    (by decide) (fun j hj _ => Nat.lt_one_iff.mp (by simpa using hj))]
  decide

/-- C4 as stated is false at a blank name: no row of the empty table
matches `" "` (vacuously), yet `upsert_jogo` returns the table unchanged
(lines 51–53) instead of adding exactly one new row. -/
theorem upsert_blank_insert_cex :
    (upsert_jogo ([] : List Row) [' '] (some 1) none none).length = 0 ∧
      (0 : ℕ) ≠ 0 + 1 := by decide

/-- C4 (amended): for a non-blank name matched by no row of the table
(trimmed, case-insensitive), `upsert_jogo` returns the table with exactly
one new row appended — `qtd_ganha = delta or 0`, `qtd_ficar = set or 0`,
`valor_credito` the given value if provided else the default constant,
`qtd_credito` the placeholder `0` — passed through the recompute, after
which the new row's `qtd_credito` is `max 0 (qtd_ganha - qtd_ficar)` and
its `valor_credito` is the given value with missing and zero both
replaced by `DEFAULT_CREDITO` (so `upsert(∅, "Risk", won=1)` with no
price and with explicit price `0` both store `59`).  The blank-name
no-op of lines 52–53 forces the non-blank hypothesis. -/
theorem upsert_inserts_new_row (df : List Row) (nome : Str)
    (g f : Option Int) (v : Option ℚ)
    (hnb : pyStrip nome ≠ [])
    (hnomatch : ∀ r ∈ df, pyLower (pyStrip r.nome) ≠ pyLower (pyStrip nome)) :
    upsert_jogo df nome g f v = recalc_df (df ++
      [{ nome := pyStrip nome,
         qtd_ganha := g.getD 0,
         qtd_ficar := f.getD 0,
         qtd_credito := 0,
         valor_credito := some (v.getD DEFAULT_CREDITO) }]) ∧
    (upsert_jogo df nome g f v).getLast? = some
      { nome := pyStrip nome,
        qtd_ganha := g.getD 0,
        qtd_ficar := f.getD 0,
        qtd_credito := max 0 (g.getD 0 - f.getD 0),
        valor_credito := some (fillValor (some (v.getD DEFAULT_CREDITO))) } := by
  have hmask : ∀ r ∈ df, maskRow (pyLower (pyStrip nome)) r = false := by
    intro r hr
    refine beq_eq_false_iff_ne.mpr fun heq => ?_
    exact hnomatch r hr (trimmed_match_of_maskRow heq)
  have hany : df.any (maskRow (pyLower (pyStrip nome))) = false := by
    rw [List.any_eq_false]
    intro r hr
    simp [hmask r hr]
  have h1 : upsert_jogo df nome g f v =
      recalc_df (df ++ [novaLinha (pyStrip nome) g f v]) := by
    show (if pyStrip nome = [] then df else
      recalc_df <|
        if !(df.any (maskRow (pyLower (pyStrip nome)))) then
          df ++ [novaLinha (pyStrip nome) g f v]
        else
          updateFirstMatch (maskRow (pyLower (pyStrip nome)))
            (atualizaLinha g f v) df) = _
    rw [if_neg hnb, hany]
    rfl
  refine ⟨h1, ?_⟩
  rw [h1]
  show (recalc_df (df ++ [novaLinha (pyStrip nome) g f v])).getLast? = _
  rw [recalc_df, List.map_append]
  simp [recalcRow, novaLinha]

theorem upsert_inserts_new_row_witness :
    (upsert_jogo [] ['R', 'i', 's', 'k'] (some 1) none none).getLast? =
      some ⟨['R', 'i', 's', 'k'], 1, 0, 1, some 59⟩ ∧
    (upsert_jogo [] ['R', 'i', 's', 'k'] (some 1) none (some 0)).getLast? =
      some ⟨['R', 'i', 's', 'k'], 1, 0, 1, some 59⟩ :=
  ⟨((upsert_inserts_new_row [] _ (some 1) none none (by decide)
      (by simp)).2).trans (by decide),
   ((upsert_inserts_new_row [] _ (some 1) none (some 0) (by decide)
      (by simp)).2).trans (by decide)⟩

lemma recalc_df_map_nome (df : List Row) :
    (recalc_df df).map Row.nome = df.map Row.nome := by
  simp only [recalc_df, List.map_map]
  exact List.map_congr_left fun r _ => rfl

lemma trim_nome_of_map_eq {l1 l2 : List Row}
    (h : l1.map Row.nome = l2.map Row.nome)
    (ht : ∀ r ∈ l2, pyStrip r.nome = r.nome) :
    ∀ r ∈ l1, pyStrip r.nome = r.nome := by
  intro r hr
  have hmem : r.nome ∈ l2.map Row.nome := by
    rw [← h]
    exact List.mem_map_of_mem _ hr
  obtain ⟨r0, hr0, he⟩ := List.mem_map.mp hmem
  rw [← he]
  exact ht r0 hr0

lemma pairwise_nome_of_map_eq {l1 l2 : List Row}
    (h : l1.map Row.nome = l2.map Row.nome)
    (hp : l2.Pairwise fun a b => pyLower a.nome ≠ pyLower b.nome) :
    l1.Pairwise fun a b => pyLower a.nome ≠ pyLower b.nome := by
  have h2 : (l2.map Row.nome).Pairwise fun a b => pyLower a ≠ pyLower b :=
    List.Pairwise.map Row.nome (fun _ _ hab => hab) hp
  rw [← h] at h2
  exact List.Pairwise.of_map Row.nome (fun _ _ hab => hab) h2

/-- Upsert only ever consults the stripped input name. -/
lemma upsert_jogo_pyStrip (df : List Row) (nome : Str) (g f : Option Int)
    (v : Option ℚ) :
    upsert_jogo df (pyStrip nome) g f v = upsert_jogo df nome g f v := by
  unfold upsert_jogo
  rw [pyStrip_idem]

/-- C3 as stated is false: a table with the single (untrimmed) stored
name `" Catan"` is unique under trimmed case-insensitive comparison, yet
`upsert_jogo` with `"Catan"` inserts a second row whose name differs from
the existing one only by surrounding whitespace. -/
theorem upsert_duplicate_whitespace_cex :
    (upsert_jogo [⟨[' ', 'C', 'a', 't', 'a', 'n'], 0, 0, 0, some 59⟩]
        ['C', 'a', 't', 'a', 'n'] (some 1) none none).map Row.nome =
      [[' ', 'C', 'a', 't', 'a', 'n'], ['C', 'a', 't', 'a', 'n']] ∧
    pyStrip [' ', 'C', 'a', 't', 'a', 'n'] = pyStrip ['C', 'a', 't', 'a', 'n'] ∧
    ([' ', 'C', 'a', 't', 'a', 'n'] : Str) ≠ ['C', 'a', 't', 'a', 'n'] := by
  decide

/-- C3 (amended): on a table whose stored names are trimmed and pairwise
distinct under case-insensitive comparison, `upsert_jogo` (for every
name and arguments) keeps every name trimmed and keeps the names pairwise
distinct case-insensitively — hence it never creates a second row
differing from an existing one only by letter case or surrounding
whitespace; moreover upserting `"  Catan "` is literally the same
operation as upserting `"Catan"`, the input name being stripped first.
(The claim as stated fails on untrimmed stored names, see the
counterexample.) -/
theorem upsert_preserves_unique_names :
    (∀ (df : List Row) (nome : Str) (g f : Option Int) (v : Option ℚ),
      (∀ r ∈ df, pyStrip r.nome = r.nome) →
      df.Pairwise (fun a b => pyLower a.nome ≠ pyLower b.nome) →
      (∀ r ∈ upsert_jogo df nome g f v, pyStrip r.nome = r.nome) ∧
      (upsert_jogo df nome g f v).Pairwise
        (fun a b => pyLower a.nome ≠ pyLower b.nome)) ∧
    (∀ (df : List Row) (g f : Option Int) (v : Option ℚ),
      upsert_jogo df [' ', ' ', 'C', 'a', 't', 'a', 'n', ' '] g f v =
        upsert_jogo df ['C', 'a', 't', 'a', 'n'] g f v) := by
  constructor
  · intro df nome g f v htrim huniq
    by_cases hnb : pyStrip nome = []
    · rw [show upsert_jogo df nome g f v = df by simp [upsert_jogo, hnb]]
      exact ⟨htrim, huniq⟩
    by_cases hany : df.any (maskRow (pyLower (pyStrip nome))) = true
    · have hcode : upsert_jogo df nome g f v =
          recalc_df (updateFirstMatch (maskRow (pyLower (pyStrip nome)))
            (atualizaLinha g f v) df) := by
        show (if pyStrip nome = [] then df else
          recalc_df <|
            if !(df.any (maskRow (pyLower (pyStrip nome)))) then
              df ++ [novaLinha (pyStrip nome) g f v]
            else
              updateFirstMatch (maskRow (pyLower (pyStrip nome)))
                (atualizaLinha g f v) df) = _
        rw [if_neg hnb, hany]
        rfl
      have hmap : (upsert_jogo df nome g f v).map Row.nome = df.map Row.nome := by
        rw [hcode, recalc_df_map_nome,
          updateFirstMatch_map_nome _ _ (atualizaLinha_nome g f v)]
      exact ⟨trim_nome_of_map_eq hmap htrim, pairwise_nome_of_map_eq hmap huniq⟩
    · have hanyf : df.any (maskRow (pyLower (pyStrip nome))) = false :=
        Bool.eq_false_iff.mpr hany
      have hcode : upsert_jogo df nome g f v =
          recalc_df (df ++ [novaLinha (pyStrip nome) g f v]) := by
        show (if pyStrip nome = [] then df else
          recalc_df <|
            if !(df.any (maskRow (pyLower (pyStrip nome)))) then
              df ++ [novaLinha (pyStrip nome) g f v]
            else
              updateFirstMatch (maskRow (pyLower (pyStrip nome)))
                (atualizaLinha g f v) df) = _
        rw [if_neg hnb, hanyf]
        rfl
      have hnomask : ∀ r ∈ df, pyLower r.nome ≠ pyLower (pyStrip nome) := by
        intro r hr heq
        have := List.any_eq_false.mp hanyf r hr
        exact this (beq_iff_eq.mpr heq)
      have hmap : (upsert_jogo df nome g f v).map Row.nome =
          (df ++ [novaLinha (pyStrip nome) g f v]).map Row.nome := by
        rw [hcode, recalc_df_map_nome]
      have htrim2 : ∀ r ∈ df ++ [novaLinha (pyStrip nome) g f v],
          pyStrip r.nome = r.nome := by
        intro r hr
        rcases List.mem_append.mp hr with hold | hnew
        · exact htrim r hold
        · rw [List.mem_singleton.mp hnew]
          exact pyStrip_idem nome
      have huniq2 : (df ++ [novaLinha (pyStrip nome) g f v]).Pairwise
          fun a b => pyLower a.nome ≠ pyLower b.nome := by
        refine List.pairwise_append.mpr ⟨huniq, by simp, ?_⟩
        intro a ha b hb
        rw [List.mem_singleton.mp hb]
        exact hnomask a ha
      exact ⟨trim_nome_of_map_eq hmap htrim2, pairwise_nome_of_map_eq hmap huniq2⟩
  · intro df g f v
    rw [← upsert_jogo_pyStrip df [' ', ' ', 'C', 'a', 't', 'a', 'n', ' '],
      show pyStrip [' ', ' ', 'C', 'a', 't', 'a', 'n', ' '] =
        ['C', 'a', 't', 'a', 'n'] by decide]

theorem upsert_preserves_unique_names_witness :
    (∀ r ∈ upsert_jogo [⟨['C', 'a', 't', 'a', 'n'], 3, 1, 2, some 10⟩]
        ['c', 'a', 't', 'a', 'n'] (some 2) none none,
      pyStrip r.nome = r.nome) ∧
    (upsert_jogo [⟨['C', 'a', 't', 'a', 'n'], 3, 1, 2, some 10⟩]
        ['c', 'a', 't', 'a', 'n'] (some 2) none none).Pairwise
      (fun a b => pyLower a.nome ≠ pyLower b.nome) :=
  upsert_preserves_unique_names.1 _ _ (some 2) none none (by decide) (by simp)

/-- C10 as stated is false: with the untrimmed stored name `" Catan"` a
row of the table matches the non-blank name `"catan"` under trimmed
case-insensitive comparison, yet the row count grows from 1 to 2 instead
of staying unchanged. -/
theorem upsert_untrimmed_count_cex :
    pyLower (pyStrip [' ', 'C', 'a', 't', 'a', 'n']) =
      pyLower (pyStrip ['c', 'a', 't', 'a', 'n']) ∧
    (upsert_jogo [⟨[' ', 'C', 'a', 't', 'a', 'n'], 3, 1, 2, some 10⟩]
        ['c', 'a', 't', 'a', 'n'] (some 2) none none).length = 2 ∧
    (2 : ℕ) ≠ 1 := by decide

/-- C10 (amended): frame property of `upsert_jogo` on tables with trimmed
stored names and a non-blank name.  If some row matches the trimmed name
case-insensitively, the row count is unchanged, existing rows keep their
positions, and every row whose trimmed lowercase name differs from the
trimmed lowercase given name equals the recompute of the original row at
the same position — name, `qtd_ganha`, `qtd_ficar` untouched,
`qtd_credito` and `valor_credito` changed only by the recompute
normalisation.  If no row matches, the result is the recomputed original
table with the single new row appended at the end, so the count grows by
exactly one.  (The claim as stated fails on untrimmed stored names, see
the counterexample.) -/
theorem upsert_frame (df : List Row) (nome : Str) (g f : Option Int)
    (v : Option ℚ)
    (htrim : ∀ r ∈ df, pyStrip r.nome = r.nome)
    (hnb : pyStrip nome ≠ []) :
    ((df.any fun r => pyLower (pyStrip r.nome) ==
        pyLower (pyStrip nome)) = true →
      (upsert_jogo df nome g f v).length = df.length ∧
      ∀ i (hi : i < df.length) (hi2 : i < (upsert_jogo df nome g f v).length),
        pyLower (pyStrip (df.get ⟨i, hi⟩).nome) ≠ pyLower (pyStrip nome) →
        (upsert_jogo df nome g f v).get ⟨i, hi2⟩ =
          recalcRow (df.get ⟨i, hi⟩)) ∧
    ((df.any fun r => pyLower (pyStrip r.nome) ==
        pyLower (pyStrip nome)) = false →
      upsert_jogo df nome g f v =
        recalc_df df ++ [recalcRow (novaLinha (pyStrip nome) g f v)]) := by
  have hany_eq : (df.any fun r => pyLower (pyStrip r.nome) ==
      pyLower (pyStrip nome)) = df.any (maskRow (pyLower (pyStrip nome))) :=
    any_congr_mem fun r hr => (maskRow_of_trimmed (htrim r hr)).symm
  constructor
  · intro hmt
    have hm : df.any (maskRow (pyLower (pyStrip nome))) = true := by
      rw [← hany_eq]
      exact hmt
    have hcode : upsert_jogo df nome g f v =
        recalc_df (updateFirstMatch (maskRow (pyLower (pyStrip nome)))
          (atualizaLinha g f v) df) := by
      show (if pyStrip nome = [] then df else
        recalc_df <|
          if !(df.any (maskRow (pyLower (pyStrip nome)))) then
            df ++ [novaLinha (pyStrip nome) g f v]
          else
            updateFirstMatch (maskRow (pyLower (pyStrip nome)))
              (atualizaLinha g f v) df) = _
      rw [if_neg hnb, hm]
      rfl
    have hlen : (upsert_jogo df nome g f v).length = df.length := by
      rw [hcode, recalc_df_length, updateFirstMatch_length]
    refine ⟨hlen, ?_⟩
    intro i hi hi2 hne
    have hmaski : maskRow (pyLower (pyStrip nome)) (df.get ⟨i, hi⟩) = false := by
      rw [maskRow_of_trimmed (htrim _ (df.get_mem _ _))]
      exact beq_eq_false_iff_ne.mpr hne
    have hi3 : i < (updateFirstMatch (maskRow (pyLower (pyStrip nome)))
        (atualizaLinha g f v) df).length := by
      rw [updateFirstMatch_length]
      exact hi
    have hi4 : i < (recalc_df (updateFirstMatch
        (maskRow (pyLower (pyStrip nome))) (atualizaLinha g f v) df)).length := by
      rw [recalc_df_length]
      exact hi3
    have hstep := updateFirstMatch_get_of_false
      (maskRow (pyLower (pyStrip nome))) (atualizaLinha g f v) df i hi hi3 hmaski
    calc (upsert_jogo df nome g f v).get ⟨i, hi2⟩
        = (recalc_df (updateFirstMatch (maskRow (pyLower (pyStrip nome)))
            (atualizaLinha g f v) df)).get ⟨i, hi4⟩ :=
          get_congr_of_eq hcode i hi2 hi4
      _ = recalcRow ((updateFirstMatch (maskRow (pyLower (pyStrip nome)))
            (atualizaLinha g f v) df).get ⟨i, hi3⟩) :=
          recalc_df_get _ i hi3 hi4
      _ = recalcRow (df.get ⟨i, hi⟩) := by rw [hstep]
  · intro hmf
    have hm : df.any (maskRow (pyLower (pyStrip nome))) = false := by
      rw [← hany_eq]
      exact hmf
    have hcode : upsert_jogo df nome g f v =
        recalc_df (df ++ [novaLinha (pyStrip nome) g f v]) := by
      show (if pyStrip nome = [] then df else
        recalc_df <|
          if !(df.any (maskRow (pyLower (pyStrip nome)))) then
            df ++ [novaLinha (pyStrip nome) g f v]
          else
            updateFirstMatch (maskRow (pyLower (pyStrip nome)))
              (atualizaLinha g f v) df) = _
      rw [if_neg hnb, hm]
      rfl
    rw [hcode, recalc_df, List.map_append]
    rfl

theorem upsert_frame_witness :
    (upsert_jogo [⟨['C', 'a', 't', 'a', 'n'], 3, 1, 2, some 10⟩,
        ⟨['R', 'i', 's', 'k'], 1, 0, 1, some 59⟩]
      ['c', 'a', 't', 'a', 'n'] (some 2) none none).length = 2 ∧
    upsert_jogo [⟨['C', 'a', 't', 'a', 'n'], 3, 1, 2, some 10⟩]
        ['R', 'i', 's', 'k'] (some 1) none none =
      recalc_df [⟨['C', 'a', 't', 'a', 'n'], 3, 1, 2, some 10⟩] ++
        [recalcRow (novaLinha (pyStrip ['R', 'i', 's', 'k'])
          (some 1) none none)] :=
  ⟨((upsert_frame _ _ _ _ _ (by decide) (by decide)).1 (by decide)).1,
   (upsert_frame _ _ _ _ _ (by decide) (by decide)).2 (by decide)⟩
